import Mathlib

/-!
Verification of the outbound batching layer (`Outbox`) of the
FluidFramework container runtime, shallowly embedded from
`packages/runtime/container-runtime/src/opLifecycle/outbox.ts`.

Side effects (transport submission calls, delta-manager flush signals,
pending-state-ledger appends, compressor/splitter invocations) are made
observable as an explicit event trace.  A thrown `BatchTooLarge` error is
modelled as an `ExecResult` whose `err` field is populated; the `state`
and `events` fields record the mutations and side effects that already
happened before the throw, matching exception semantics of the source.
-/

/-- A JavaScript non-negative number that may be `Number.POSITIVE_INFINITY`. -/
inductive XNat where
  | fin (n : Nat) : XNat
  | inf : XNat
deriving DecidableEq, Repr

/-- `n < x` for a byte count against a possibly-infinite threshold. -/
def natLtX (n : Nat) (x : XNat) : Bool :=
  match x with
  | XNat.fin m => n < m
  | XNat.inf => true

/-- `n >= x`: the possibly-infinite threshold has been reached. -/
def natGeX (n : Nat) (x : XNat) : Bool :=
  !(natLtX n x)

/-- `n > x`: the byte count strictly exceeds a possibly-infinite limit. -/
def natGtX (n : Nat) (x : XNat) : Bool :=
  match x with
  | XNat.fin m => m < n
  | XNat.inf => false

/-- The structured `{type, contents}` form of an op, required for legacy
single-op transmission (`message.deserializedContent` in the source). -/
structure DeserializedContent where
  type : String
  contents : String
deriving DecidableEq, Repr

/-- Op metadata: the optional `compressed` flag plus the remaining opaque
entries (`message.metadata` in the source; `delete metadata.compressed`
sets the flag component to `none` and leaves `flags` untouched). -/
structure OpMetadata where
  compressed : Option Bool
  flags : List String
deriving DecidableEq, Repr

/-- One client-generated op queued for transmission (`BatchMessage`). -/
structure BatchMessage where
  contents : Option String
  deserializedContent : DeserializedContent
  referenceSequenceNumber : Nat
  metadata : Option OpMetadata
  localOpMetadata : Option String
  compression : Option String
deriving DecidableEq, Repr

/-- Byte size of one op: `message.contents?.length ?? 0`. -/
def opSizeInBytes (m : BatchMessage) : Nat :=
  match m.contents with
  | some s => s.length
  | none => 0

/-- An ordered group of ops plus the aggregate byte size (`IBatch`). -/
structure IBatch where
  content : List BatchMessage
  contentSizeInBytes : Nat
deriving DecidableEq, Repr

/-- Modelled from the spec: the options record handed to a `BatchManager`
at construction (spec section 4.1); `batchManager.ts` is not part of this
source snapshot.  `softLimit` is an optional field, absent (`none`) when
the owner's options object literal carries no `softLimit` key. -/
structure BatchManagerOptions where
  hardLimit : XNat
  softLimit : Option XNat
  enableOpReentryCheck : Option Bool
deriving DecidableEq, Repr

/-- Modelled from the spec: `BatchManager` state, the ordered pending
batch of ops (spec section 4.1). -/
structure BatchManager where
  pendingBatch : List BatchMessage
deriving DecidableEq, Repr

/-- Aggregate byte size of the pending batch. -/
def BatchManager.contentSizeInBytes (b : BatchManager) : Nat :=
  (b.pendingBatch.map opSizeInBytes).sum

/-- Number of pending ops. -/
def BatchManager.length (b : BatchManager) : Nat :=
  b.pendingBatch.length

/-- Modelled from the spec: `push` fails (returns `none`, no mutation) iff
adding the op would exceed `hardLimit`; on success the op is appended
(spec section 4.1). -/
def BatchManager.push (opts : BatchManagerOptions) (b : BatchManager)
    (m : BatchMessage) : Option BatchManager :=
  if natGtX (b.contentSizeInBytes + opSizeInBytes m) opts.hardLimit then
    none
  else
    some ⟨b.pendingBatch ++ [m]⟩

/-- Modelled from the spec: `popBatch` atomically removes and returns the
accumulated batch, resetting the manager to empty (spec section 4.1). -/
def BatchManager.popBatch (b : BatchManager) : IBatch × BatchManager :=
  (⟨b.pendingBatch, b.contentSizeInBytes⟩, ⟨[]⟩)

/-- `ICompressionRuntimeOptions` as consumed by the outbox: the
compression threshold, possibly `Number.POSITIVE_INFINITY`. -/
structure ICompressionRuntimeOptions where
  minimumBatchSizeInBytes : XNat
deriving DecidableEq, Repr

/-- `IOutboxConfig` (outbox.ts lines 17-22).  `compressionOptions` is a
required field of the interface, so the defensive
`compressionOptions === undefined` disjunct in `compressBatch` can never
fire in this embedding. -/
structure IOutboxConfig where
  compressionOptions : ICompressionRuntimeOptions
  maxBatchSizeInBytes : Nat
  enableOpReentryCheck : Option Bool
deriving DecidableEq, Repr

/-- The collaborators the outbox consumes (`IOutboxParameters` minus the
pending state manager, whose appends are recorded as trace events):
the point-in-time `shouldSend` answer, the compressor and splitter, and
whether the container context offers the modern `submitBatchFn`. -/
structure OutboxEnv where
  shouldSend : Bool
  compressBatchFn : IBatch → IBatch
  isBatchChunkingEnabled : Bool
  splitCompressedBatch : IBatch → IBatch
  hasSubmitBatchFn : Bool

/-- The single error kind, `BatchTooLarge`, with the two distinct
diagnostic payloads the source attaches (submit/submitAttach push
failures vs the compression-overflow failure). -/
inductive OutboxError where
  | batchTooLargePush (opSize batchSize count : Nat) (limit : XNat)
  | batchTooLargeCompress (batchSize compressedBatchSize count maxLimit : Nat)
      (chunkingEnabled : Bool) (compressionOptions : ICompressionRuntimeOptions)
deriving DecidableEq, Repr

/-- `MessageType.Operation` from the protocol definitions. -/
inductive MessageType where
  | Operation
deriving DecidableEq, Repr

/-- One entry of the array handed to the modern `submitBatchFn`
(outbox.ts lines 184-190). -/
structure BatchEntry where
  contents : Option String
  metadata : Option OpMetadata
  compression : Option String
deriving DecidableEq, Repr

/-- Observable side effects of the outbox, in program order. -/
inductive Event where
  | compressorCall (batch : IBatch)
  | splitterCall (batch : IBatch)
  | submitBatchCall (entries : List BatchEntry)
  | submitCall (type : MessageType) (content : DeserializedContent)
      (batchFlag : Bool) (metadata : Option OpMetadata)
  | deltaManagerFlush
  | ledgerAppend (type : String) (refSeq : Nat) (contents : String)
      (localOpMetadata : Option String) (metadata : Option OpMetadata)
deriving DecidableEq, Repr

/-- Transport submission calls (modern whole-batch or legacy single-op). -/
def isTransportSend : Event → Bool
  | Event.submitBatchCall _ => true
  | Event.submitCall _ _ _ _ => true
  | _ => false

/-- Appends to the pending-state ledger. -/
def isLedgerAppend : Event → Bool
  | Event.ledgerAppend _ _ _ _ _ => true
  | _ => false

/-- Default soft limit for the attach-flow batch manager
(outbox.ts line 37). -/
def defaultAttachFlowSoftLimitInBytes : Nat := 64 * 1024

/-- The limit decision table run once in the `Outbox` constructor
(outbox.ts lines 39-62): first component the attach-flow manager's
options, second the main manager's.  The main manager's options literal
carries no `softLimit` key. -/
def outboxLimits (cfg : IOutboxConfig) : BatchManagerOptions × BatchManagerOptions :=
  let isCompressionEnabled :=
    cfg.compressionOptions.minimumBatchSizeInBytes ≠ XNat.inf
  let hardLimit := if isCompressionEnabled then XNat.inf
    else XNat.fin cfg.maxBatchSizeInBytes
  let softLimit := if isCompressionEnabled then XNat.inf
    else XNat.fin defaultAttachFlowSoftLimitInBytes
  (⟨hardLimit, some softLimit, cfg.enableOpReentryCheck⟩,
   ⟨hardLimit, none, cfg.enableOpReentryCheck⟩)

/-- State of an `Outbox`: its two batch managers. -/
structure OutboxState where
  attachFlowBatch : BatchManager
  mainBatch : BatchManager
deriving DecidableEq, Repr

/-- `Outbox.isEmpty` (outbox.ts lines 64-66). -/
def outboxIsEmpty (s : OutboxState) : Bool :=
  s.attachFlowBatch.length == 0 && s.mainBatch.length == 0

/-- Result of running one outbox entry point: the state the managers were
left in, the side effects that happened, and the error thrown (if any)
after those effects. -/
structure ExecResult where
  state : OutboxState
  events : List Event
  err : Option OutboxError
deriving DecidableEq, Repr

/-- `Outbox.compressBatch` (outbox.ts lines 120-149), instrumented with
the compressor/splitter invocations it performs. -/
def compressBatchRun (env : OutboxEnv) (cfg : IOutboxConfig) (batch : IBatch) :
    List Event × Except OutboxError IBatch :=
  if batch.content.length == 0 ||
      natLtX batch.contentSizeInBytes cfg.compressionOptions.minimumBatchSizeInBytes then
    ([], Except.ok batch)
  else
    let compressedBatch := env.compressBatchFn batch
    if compressedBatch.contentSizeInBytes ≤ cfg.maxBatchSizeInBytes then
      ([Event.compressorCall batch], Except.ok compressedBatch)
    else if env.isBatchChunkingEnabled then
      ([Event.compressorCall batch, Event.splitterCall compressedBatch],
        Except.ok (env.splitCompressedBatch compressedBatch))
    else
      ([Event.compressorCall batch],
        Except.error (OutboxError.batchTooLargeCompress batch.contentSizeInBytes
          compressedBatch.contentSizeInBytes compressedBatch.content.length
          cfg.maxBatchSizeInBytes env.isBatchChunkingEnabled
          cfg.compressionOptions))

/-- The legacy path's `if (message.metadata?.compressed) delete
message.metadata.compressed` (outbox.ts lines 170-172): the key is
removed only when its value is truthy. -/
def stripCompressed (md : Option OpMetadata) : Option OpMetadata :=
  match md with
  | none => none
  | some m =>
    if m.compressed = some true then some { m with compressed := none }
    else some m

/-- `Outbox.sendBatch` (outbox.ts lines 156-192) as the list of transport
events it performs.  The legacy per-op loop also mutates each message
object in place by deleting a truthy compressed flag; that effect on the
batch content is modelled by `contentAfterSend` below and is observed by
`persistBatch` whenever the sent batch aliases the raw batch. -/
def sendBatch (env : OutboxEnv) (batch : IBatch) : List Event :=
  if batch.content.length == 0 || !env.shouldSend then
    []
  else if env.hasSubmitBatchFn = false then
    (batch.content.map (fun m =>
      Event.submitCall MessageType.Operation m.deserializedContent true
        (stripCompressed m.metadata)))
      ++ [Event.deltaManagerFlush]
  else
    [Event.submitBatchCall (batch.content.map (fun m =>
      ⟨m.contents, m.metadata, m.compression⟩))]

/-- `Outbox.persistBatch` (outbox.ts lines 194-206) as the list of ledger
append events. -/
def persistBatch (content : List BatchMessage) : List Event :=
  content.map (fun m =>
    Event.ledgerAppend m.deserializedContent.type m.referenceSequenceNumber
      m.deserializedContent.contents m.localOpMetadata m.metadata)

/-- The no-op condition of `compressBatch` (outbox.ts lines 121-125).
When it holds, `compressBatch` returns its input object itself, so the
batch handed to `sendBatch` aliases the raw batch. -/
def compressionSkipped (cfg : IOutboxConfig) (batch : IBatch) : Bool :=
  batch.content.length == 0 ||
    natLtX batch.contentSizeInBytes cfg.compressionOptions.minimumBatchSizeInBytes

/-- The content of a batch after `sendBatch` ran on it: the legacy per-op
loop (outbox.ts lines 168-180) deletes a truthy compressed flag from each
message object in place before submitting it, so a batch that went
through that loop keeps the stripped metadata; the modern path and the
early return (empty batch, or shouldSend false) leave the messages
untouched. -/
def contentAfterSend (env : OutboxEnv) (batch : IBatch) : List BatchMessage :=
  if batch.content.length == 0 || !env.shouldSend then
    batch.content
  else if env.hasSubmitBatchFn = false then
    batch.content.map (fun m => { m with metadata := stripCompressed m.metadata })
  else
    batch.content

/-- The raw-batch content as `persistBatch` observes it inside
`flushInternal` (outbox.ts lines 113-118): the send step runs first, and
when the compression step was a no-op the sent batch is the raw batch
object itself, so the legacy-path in-place strip is visible to the
ledger; otherwise the sent batch is the compressor or splitter output,
which consists of fresh messages (Compressor and Splitter are pure
transforms that must not mutate their input, spec section 6), leaving
the raw messages untouched. -/
def persistedContent (env : OutboxEnv) (cfg : IOutboxConfig) (rawBatch : IBatch) :
    List BatchMessage :=
  if compressionSkipped cfg rawBatch then contentAfterSend env rawBatch
  else rawBatch.content

/-- True exactly when the legacy send loop runs on the raw batch object
itself: compression skipped, a non-empty batch, shouldSend true, and a
transport lacking submitBatchFn. -/
def legacyAliasedSend (env : OutboxEnv) (cfg : IOutboxConfig)
    (rawBatch : IBatch) : Bool :=
  compressionSkipped cfg rawBatch &&
    !(rawBatch.content.length == 0 || !env.shouldSend) &&
    !env.hasSubmitBatchFn

/-- `Outbox.flushInternal` (outbox.ts lines 113-118): compress, send,
then persist the pre-compression raw batch; a compression throw prevents
both the send and the persist.  Persistence reads the raw message
objects after the send step, so it sees the legacy-path metadata strip
exactly when the sent batch aliases the raw batch. -/
def flushInternal (env : OutboxEnv) (cfg : IOutboxConfig) (rawBatch : IBatch) :
    List Event × Option OutboxError :=
  match compressBatchRun env cfg rawBatch with
  | (evs, Except.error e) => (evs, some e)
  | (evs, Except.ok processedBatch) =>
    (evs ++ sendBatch env processedBatch ++
      persistBatch (persistedContent env cfg rawBatch), none)

/-- `Outbox.submit` (outbox.ts lines 68-77). -/
def submit (cfg : IOutboxConfig) (s : OutboxState) (message : BatchMessage) :
    ExecResult :=
  match BatchManager.push (outboxLimits cfg).2 s.mainBatch message with
  | some b => ⟨⟨s.attachFlowBatch, b⟩, [], none⟩
  | none =>
    ⟨s, [], some (OutboxError.batchTooLargePush (opSizeInBytes message)
      s.mainBatch.contentSizeInBytes s.mainBatch.length
      (outboxLimits cfg).2.hardLimit)⟩

/-- The tail of `Outbox.submitAttach` (outbox.ts lines 100-105): after a
successful push, eagerly flush the attach batch once its size reaches
the compression threshold. -/
def attachThresholdFlush (env : OutboxEnv) (cfg : IOutboxConfig)
    (s : OutboxState) : ExecResult :=
  if natGeX s.attachFlowBatch.contentSizeInBytes
      cfg.compressionOptions.minimumBatchSizeInBytes then
    match flushInternal env cfg (s.attachFlowBatch.popBatch).1 with
    | (evs, err) => ⟨⟨(s.attachFlowBatch.popBatch).2, s.mainBatch⟩, evs, err⟩
  else
    ⟨s, [], none⟩

/-- `Outbox.submitAttach` (outbox.ts lines 79-106). -/
def submitAttach (env : OutboxEnv) (cfg : IOutboxConfig) (s : OutboxState)
    (message : BatchMessage) : ExecResult :=
  match BatchManager.push (outboxLimits cfg).1 s.attachFlowBatch message with
  | some b => attachThresholdFlush env cfg ⟨b, s.mainBatch⟩
  | none =>
    match flushInternal env cfg (s.attachFlowBatch.popBatch).1 with
    | (evs, some e) =>
      ⟨⟨(s.attachFlowBatch.popBatch).2, s.mainBatch⟩, evs, some e⟩
    | (evs, none) =>
      match BatchManager.push (outboxLimits cfg).1
          (s.attachFlowBatch.popBatch).2 message with
      | none =>
        ⟨⟨(s.attachFlowBatch.popBatch).2, s.mainBatch⟩, evs,
          some (OutboxError.batchTooLargePush (opSizeInBytes message)
            ((s.attachFlowBatch.popBatch).2).contentSizeInBytes
            ((s.attachFlowBatch.popBatch).2).length
            (outboxLimits cfg).1.hardLimit)⟩
      | some b2 =>
        match attachThresholdFlush env cfg ⟨b2, s.mainBatch⟩ with
        | r => ⟨r.state, evs ++ r.events, r.err⟩

/-- `Outbox.flush` (outbox.ts lines 108-111): pop and process the
attach-flow batch, then pop and process the main batch. -/
def flush (env : OutboxEnv) (cfg : IOutboxConfig) (s : OutboxState) :
    ExecResult :=
  match flushInternal env cfg (s.attachFlowBatch.popBatch).1 with
  | (evsA, some e) =>
    ⟨⟨(s.attachFlowBatch.popBatch).2, s.mainBatch⟩, evsA, some e⟩
  | (evsA, none) =>
    match flushInternal env cfg (s.mainBatch.popBatch).1 with
    | (evsB, err) =>
      ⟨⟨(s.attachFlowBatch.popBatch).2, (s.mainBatch.popBatch).2⟩,
        evsA ++ evsB, err⟩

/-- Fixture: identity compressor and splitter, modern transport, connected. -/
def envModern : OutboxEnv := ⟨true, fun b => b, false, fun b => b, true⟩

/-- Fixture: a legacy transport environment (no submitBatchFn), connected. -/
def envLegacy : OutboxEnv := ⟨true, fun b => b, false, fun b => b, false⟩

/-- Fixture: a disconnected environment (shouldSend reports false). -/
def envOffline : OutboxEnv := ⟨false, fun b => b, false, fun b => b, true⟩

/-- Fixture: a compressor stub whose output still exceeds the maximum
batch size, with chunking disabled. -/
def envOversize : OutboxEnv := ⟨true, fun _ => ⟨[], 999⟩, false, fun b => b, true⟩

/-- Fixture: compression enabled (finite threshold). -/
def cfgCompressionOn : IOutboxConfig := ⟨⟨XNat.fin 1024⟩, 972800, none⟩

/-- Fixture: compression disabled (infinite threshold). -/
def cfgCompressionOff : IOutboxConfig := ⟨⟨XNat.inf⟩, 716800, none⟩

/-- Fixture: compression threshold 3 bytes, wire ceiling 10 bytes. -/
def cfgSmallMax : IOutboxConfig := ⟨⟨XNat.fin 3⟩, 10, none⟩

/-- Fixture: compression disabled with a 5-byte maximum batch size. -/
def cfgTinyLimit : IOutboxConfig := ⟨⟨XNat.inf⟩, 5, none⟩

/-- Fixture: a 4-byte op. -/
def msgA : BatchMessage := ⟨some "aaaa", ⟨"op", "A"⟩, 1, none, none, none⟩

/-- Fixture: a 2-byte op. -/
def msgB : BatchMessage := ⟨some "bb", ⟨"op", "B"⟩, 2, none, none, none⟩

/-- Fixture: an op whose metadata carries a compressed flag with value
false (a falsy flag the legacy path does not delete). -/
def msgCompressedFalse : BatchMessage :=
  ⟨some "zz", ⟨"op", "payloadZ"⟩, 7, some ⟨some false, ["k"]⟩, none, none⟩

/-- Fixture: an op whose metadata carries a compressed flag with value
true (the legacy path deletes it in place). -/
def msgCompressedTrue : BatchMessage :=
  ⟨some "cc", ⟨"op", "payloadC"⟩, 9, some ⟨some true, ["w"]⟩, none, none⟩

/-- The compressed field of the metadata of each legacy single-op
submission event (outer option models absent metadata). -/
def submittedCompressedFields (evs : List Event) : List (Option (Option Bool)) :=
  evs.filterMap (fun ev =>
    match ev with
    | Event.submitCall _ _ _ md => some (md.map OpMetadata.compressed)
    | _ => none)

theorem flushInternal_ok (env : OutboxEnv) (cfg : IOutboxConfig) (raw : IBatch)
    (evs : List Event) (p : IBatch)
    (h : compressBatchRun env cfg raw = (evs, Except.ok p)) :
    flushInternal env cfg raw =
      (evs ++ sendBatch env p ++
        persistBatch (persistedContent env cfg raw), none) := by
  unfold flushInternal
  rw [h]

theorem flushInternal_error (env : OutboxEnv) (cfg : IOutboxConfig) (raw : IBatch)
    (evs : List Event) (e : OutboxError)
    (h : compressBatchRun env cfg raw = (evs, Except.error e)) :
    flushInternal env cfg raw = (evs, some e) := by
  unfold flushInternal
  rw [h]

theorem compressBatchRun_skipped (env : OutboxEnv) (cfg : IOutboxConfig)
    (b : IBatch) (h : compressionSkipped cfg b = true) :
    compressBatchRun env cfg b = ([], Except.ok b) := by
  have h2 : (b.content.length == 0 ||
      natLtX b.contentSizeInBytes
        cfg.compressionOptions.minimumBatchSizeInBytes) = true := h
  unfold compressBatchRun
  rw [h2]
  rfl

theorem persistedContent_not_skipped (env : OutboxEnv) (cfg : IOutboxConfig)
    (b : IBatch) (h : compressionSkipped cfg b = false) :
    persistedContent env cfg b = b.content := by
  unfold persistedContent
  rw [h]
  rfl

theorem persistedContent_eq (env : OutboxEnv) (cfg : IOutboxConfig)
    (raw : IBatch) :
    persistedContent env cfg raw =
      raw.content.map (fun m =>
        if legacyAliasedSend env cfg raw then
          { m with metadata := stripCompressed m.metadata }
        else m) := by
  unfold persistedContent contentAfterSend legacyAliasedSend
  cases hsk : compressionSkipped cfg raw <;>
    cases hse : (raw.content.length == 0 || !env.shouldSend) <;>
      cases hsb : env.hasSubmitBatchFn <;>
        simp [hsk, hse, hsb]

theorem compressBatchRun_events_classify (env : OutboxEnv) (cfg : IOutboxConfig)
    (batch : IBatch) :
    ((compressBatchRun env cfg batch).1).filter isTransportSend = []
    ∧ ((compressBatchRun env cfg batch).1).filter isLedgerAppend = [] := by
  unfold compressBatchRun
  dsimp only
  repeat' split
  all_goals simp [isTransportSend, isLedgerAppend]

theorem persistBatch_filter_send (l : List BatchMessage) :
    (persistBatch l).filter isTransportSend = [] := by
  simp [persistBatch, isTransportSend]

theorem persistBatch_filter_ledger (l : List BatchMessage) :
    (persistBatch l).filter isLedgerAppend = persistBatch l := by
  simp [persistBatch, isLedgerAppend]

theorem sendBatch_filter_ledger (env : OutboxEnv) (b : IBatch) :
    (sendBatch env b).filter isLedgerAppend = [] := by
  unfold sendBatch
  repeat' split
  · rfl
  · rw [List.filter_append]
    have hmap : (b.content.map (fun m =>
        Event.submitCall MessageType.Operation m.deserializedContent true
          (stripCompressed m.metadata))).filter isLedgerAppend = [] := by
      simp [isLedgerAppend]
    rw [hmap]
    rfl
  · simp [isLedgerAppend]

theorem sendBatch_filter_send_ne (env : OutboxEnv) (b : IBatch)
    (hs : env.shouldSend = true) (hne : b.content ≠ []) :
    (sendBatch env b).filter isTransportSend ≠ [] := by
  unfold sendBatch
  cases hc : b.content with
  | nil => exact absurd hc hne
  | cons a t =>
    rw [hs]
    by_cases hb : env.hasSubmitBatchFn
    · simp [hb, isTransportSend]
    · simp [hb, isTransportSend]

/-- Claim C1: every `flush()` pops and fully processes (compresses, sends,
persists) the attach-flow batch strictly before the main batch; when both
batch managers are non-empty, the transport observes the attach batch's
send strictly before the main batch's send. -/
theorem C1_flush_attach_before_main (env : OutboxEnv) (cfg : IOutboxConfig)
    (s : OutboxState) (pA pM : IBatch) (cevA cevB : List Event)
    (hA : compressBatchRun env cfg (s.attachFlowBatch.popBatch).1 =
      (cevA, Except.ok pA))
    (hM : compressBatchRun env cfg (s.mainBatch.popBatch).1 =
      (cevB, Except.ok pM))
    (hSend : env.shouldSend = true)
    (_hAne : s.attachFlowBatch.pendingBatch ≠ [])
    (_hMne : s.mainBatch.pendingBatch ≠ [])
    (hpA : pA.content ≠ []) (hpM : pM.content ≠ []) :
    (flush env cfg s).events =
      (cevA ++ sendBatch env pA
        ++ persistBatch (persistedContent env cfg (s.attachFlowBatch.popBatch).1))
      ++ (cevB ++ sendBatch env pM
        ++ persistBatch (persistedContent env cfg (s.mainBatch.popBatch).1))
    ∧ (flush env cfg s).events.filter isTransportSend =
        (sendBatch env pA).filter isTransportSend
        ++ (sendBatch env pM).filter isTransportSend
    ∧ (sendBatch env pA).filter isTransportSend ≠ []
    ∧ (sendBatch env pM).filter isTransportSend ≠ [] := by
  have hfa := flushInternal_ok env cfg _ _ _ hA
  have hfm := flushInternal_ok env cfg _ _ _ hM
  have hflush : flush env cfg s =
      ⟨⟨(s.attachFlowBatch.popBatch).2, (s.mainBatch.popBatch).2⟩,
        (cevA ++ sendBatch env pA
          ++ persistBatch (persistedContent env cfg (s.attachFlowBatch.popBatch).1))
        ++ (cevB ++ sendBatch env pM
          ++ persistBatch (persistedContent env cfg (s.mainBatch.popBatch).1)),
        none⟩ := by
    unfold flush
    rw [hfa, hfm]
  have hcevA : cevA.filter isTransportSend = [] := by
    have h1 := (compressBatchRun_events_classify env cfg (s.attachFlowBatch.popBatch).1).1
    rw [hA] at h1
    simpa using h1
  have hcevB : cevB.filter isTransportSend = [] := by
    have h1 := (compressBatchRun_events_classify env cfg (s.mainBatch.popBatch).1).1
    rw [hM] at h1
    simpa using h1
  refine ⟨by rw [hflush], ?_,
    sendBatch_filter_send_ne env pA hSend hpA,
    sendBatch_filter_send_ne env pM hSend hpM⟩
  rw [hflush]
  simp [List.filter_append, hcevA, hcevB, persistBatch_filter_send]

/-- Claim C2: for every batch successfully flushed through
`flushInternal` — on both the modern and legacy send paths, and also
when the batch was compressed or split before sending — the ledger
receives exactly one append per op of the pre-compression raw batch, in
order, carrying that op's type, reference sequence number, pre-transform
contents and local op metadata, together with its wire metadata: the
metadata field the op holds at persist time, namely the original value,
except that on the legacy send path with the compression step skipped
(the sent batch being the raw batch object itself) a compressed flag set
to true has already been deleted in place by the send loop. -/
theorem C2_ledger_records (env : OutboxEnv) (cfg : IOutboxConfig)
    (rawBatch : IBatch)
    (h : (flushInternal env cfg rawBatch).2 = none) :
    ((flushInternal env cfg rawBatch).1).filter isLedgerAppend =
      rawBatch.content.map (fun m =>
        Event.ledgerAppend m.deserializedContent.type m.referenceSequenceNumber
          m.deserializedContent.contents m.localOpMetadata
          (if legacyAliasedSend env cfg rawBatch then stripCompressed m.metadata
           else m.metadata)) := by
  rcases hc : compressBatchRun env cfg rawBatch with ⟨evs, r⟩
  cases r with
  | error e =>
    have hfe := flushInternal_error env cfg _ _ _ hc
    rw [hfe] at h
    exact absurd h (by simp)
  | ok p =>
    have hfi := flushInternal_ok env cfg _ _ _ hc
    rw [hfi]
    have hcev : evs.filter isLedgerAppend = [] := by
      have h1 := (compressBatchRun_events_classify env cfg rawBatch).2
      rw [hc] at h1
      simpa using h1
    rw [List.filter_append, List.filter_append, hcev, sendBatch_filter_ledger,
      persistBatch_filter_ledger, persistedContent_eq]
    cases hla : legacyAliasedSend env cfg rawBatch <;>
      simp [hla, persistBatch]

/-- Claim C3: for a non-empty batch at or above the compression threshold
whose compressed form still exceeds `maxBatchSizeInBytes`: with chunking
disabled, `compressBatch` (hence `flushInternal`) raises `BatchTooLarge`
carrying the raw batch size, compressed batch size, op count, configured
limit, chunking flag and compression configuration; with chunking enabled
the splitter's output is returned and sent without error. -/
theorem C3_compression_overflow (env : OutboxEnv) (cfg : IOutboxConfig)
    (batch : IBatch)
    (hne : batch.content ≠ [])
    (hmin : natLtX batch.contentSizeInBytes
      cfg.compressionOptions.minimumBatchSizeInBytes = false)
    (hover : cfg.maxBatchSizeInBytes <
      (env.compressBatchFn batch).contentSizeInBytes) :
    (env.isBatchChunkingEnabled = false →
      compressBatchRun env cfg batch =
        ([Event.compressorCall batch],
          Except.error (OutboxError.batchTooLargeCompress batch.contentSizeInBytes
            (env.compressBatchFn batch).contentSizeInBytes
            (env.compressBatchFn batch).content.length
            cfg.maxBatchSizeInBytes false cfg.compressionOptions))
      ∧ (flushInternal env cfg batch).2 =
          some (OutboxError.batchTooLargeCompress batch.contentSizeInBytes
            (env.compressBatchFn batch).contentSizeInBytes
            (env.compressBatchFn batch).content.length
            cfg.maxBatchSizeInBytes false cfg.compressionOptions))
    ∧ (env.isBatchChunkingEnabled = true →
      compressBatchRun env cfg batch =
        ([Event.compressorCall batch,
          Event.splitterCall (env.compressBatchFn batch)],
          Except.ok (env.splitCompressedBatch (env.compressBatchFn batch)))
      ∧ (flushInternal env cfg batch).1 =
          [Event.compressorCall batch,
            Event.splitterCall (env.compressBatchFn batch)]
          ++ sendBatch env (env.splitCompressedBatch (env.compressBatchFn batch))
          ++ persistBatch batch.content
      ∧ (flushInternal env cfg batch).2 = none) := by
  have hl : (batch.content.length == 0) = false := by
    simp only [beq_eq_false_iff_ne, ne_eq, List.length_eq_zero]
    exact hne
  have hcond : (batch.content.length == 0 ||
      natLtX batch.contentSizeInBytes
        cfg.compressionOptions.minimumBatchSizeInBytes) = false := by
    rw [hl, hmin]
    rfl
  have hle : ((env.compressBatchFn batch).contentSizeInBytes ≤
      cfg.maxBatchSizeInBytes) = False :=
    eq_false (Nat.not_le.mpr hover)
  constructor
  · intro hch
    have hcbr : compressBatchRun env cfg batch =
        ([Event.compressorCall batch],
          Except.error (OutboxError.batchTooLargeCompress batch.contentSizeInBytes
            (env.compressBatchFn batch).contentSizeInBytes
            (env.compressBatchFn batch).content.length
            cfg.maxBatchSizeInBytes false cfg.compressionOptions)) := by
      simp [compressBatchRun, hcond, hle, hch]
    exact ⟨hcbr, by rw [flushInternal_error env cfg _ _ _ hcbr]⟩
  · intro hch
    have hcbr : compressBatchRun env cfg batch =
        ([Event.compressorCall batch,
          Event.splitterCall (env.compressBatchFn batch)],
          Except.ok (env.splitCompressedBatch (env.compressBatchFn batch))) := by
      simp [compressBatchRun, hcond, hle, hch]
    have hfi := flushInternal_ok env cfg _ _ _ hcbr
    have hpc : persistedContent env cfg batch = batch.content :=
      persistedContent_not_skipped env cfg batch hcond
    exact ⟨hcbr, by rw [hfi, hpc], by rw [hfi]⟩

/-- Claim C4: `compressBatch` returns its input batch unchanged whenever
the batch is empty, compression is disabled (infinite threshold), or the
batch's `contentSizeInBytes` is strictly below
`minimumBatchSizeInBytes`; in every other case the compressor is
invoked on the batch. -/
theorem C4_compression_threshold (env : OutboxEnv) (cfg : IOutboxConfig)
    (batch : IBatch) :
    ((batch.content = []
        ∨ cfg.compressionOptions.minimumBatchSizeInBytes = XNat.inf
        ∨ natLtX batch.contentSizeInBytes
            cfg.compressionOptions.minimumBatchSizeInBytes = true) →
      compressBatchRun env cfg batch = ([], Except.ok batch))
    ∧ (batch.content ≠ [] →
       natLtX batch.contentSizeInBytes
         cfg.compressionOptions.minimumBatchSizeInBytes = false →
       ((compressBatchRun env cfg batch).1).head? =
         some (Event.compressorCall batch)) := by
  constructor
  · intro h
    have hcond : (batch.content.length == 0 ||
        natLtX batch.contentSizeInBytes
          cfg.compressionOptions.minimumBatchSizeInBytes) = true := by
      rcases h with h | h | h
      · simp [h]
      · simp [h, natLtX]
      · simp [h]
    simp [compressBatchRun, hcond]
  · intro hne hmin
    have hl : (batch.content.length == 0) = false := by
      simp only [beq_eq_false_iff_ne, ne_eq, List.length_eq_zero]
      exact hne
    have hcond : (batch.content.length == 0 ||
        natLtX batch.contentSizeInBytes
          cfg.compressionOptions.minimumBatchSizeInBytes) = false := by
      rw [hl, hmin]
      rfl
    by_cases h1 : (env.compressBatchFn batch).contentSizeInBytes ≤
        cfg.maxBatchSizeInBytes
    · simp [compressBatchRun, hcond, h1]
    · by_cases h2 : env.isBatchChunkingEnabled <;>
        simp [compressBatchRun, hcond, h1, h2]

/-- Claim C7: `submit` throws `BatchTooLarge` immediately on a failed
push into the main batch manager, carrying the op size, current batch
size, current op count and configured hard limit, with no flush and no
retry (state unchanged, no side effects); on a successful push it throws
nothing and performs no other action. -/
theorem C7_submit_behavior (cfg : IOutboxConfig) (s : OutboxState)
    (m : BatchMessage) :
    (BatchManager.push (outboxLimits cfg).2 s.mainBatch m = none →
      submit cfg s m = ⟨s, [],
        some (OutboxError.batchTooLargePush (opSizeInBytes m)
          s.mainBatch.contentSizeInBytes s.mainBatch.length
          (outboxLimits cfg).2.hardLimit)⟩)
    ∧ (∀ b, BatchManager.push (outboxLimits cfg).2 s.mainBatch m = some b →
      submit cfg s m = ⟨⟨s.attachFlowBatch, b⟩, [], none⟩) := by
  constructor
  · intro h
    unfold submit
    rw [h]
  · intro b h
    unfold submit
    rw [h]

/-- Claim C8: for a flushed batch, when the processed batch is empty or
`shouldSend()` reports false at send time, `sendBatch` performs zero
transport calls and no error is raised, while `persistBatch` still
appends every op of the raw batch to the ledger. -/
theorem C8_disconnected_noop (env : OutboxEnv) (cfg : IOutboxConfig)
    (raw : IBatch) (evs : List Event) (p : IBatch)
    (hc : compressBatchRun env cfg raw = (evs, Except.ok p))
    (h : p.content = [] ∨ env.shouldSend = false) :
    sendBatch env p = []
    ∧ (flushInternal env cfg raw).2 = none
    ∧ ((flushInternal env cfg raw).1).filter isTransportSend = []
    ∧ ((flushInternal env cfg raw).1).filter isLedgerAppend =
        persistBatch raw.content := by
  have hsend : sendBatch env p = [] := by
    unfold sendBatch
    rcases h with h | h
    · simp [h]
    · simp [h]
  have hpc : persistedContent env cfg raw = raw.content := by
    cases hsk : compressionSkipped cfg raw with
    | false =>
      unfold persistedContent
      rw [hsk]
      rfl
    | true =>
      have hcraw := compressBatchRun_skipped env cfg raw hsk
      rw [hc] at hcraw
      have hpr : p = raw := by
        have h2 := congrArg Prod.snd hcraw
        simp at h2
        exact h2
      have hca : contentAfterSend env raw = raw.content := by
        unfold contentAfterSend
        rcases h with hempty | hoff
        · have hre : raw.content = [] := by
            rw [← hpr]
            exact hempty
          rw [hre]
          rfl
        · rw [hoff]
          simp
      unfold persistedContent
      rw [hsk, hca]
      rfl
  have hfi := flushInternal_ok env cfg _ _ _ hc
  refine ⟨hsend, by rw [hfi], ?_, ?_⟩
  · rw [hfi]
    have hcev : evs.filter isTransportSend = [] := by
      have h1 := (compressBatchRun_events_classify env cfg raw).1
      rw [hc] at h1
      simpa using h1
    simp [List.filter_append, hcev, hsend, persistBatch_filter_send]
  · rw [hfi]
    have hcev : evs.filter isLedgerAppend = [] := by
      have h1 := (compressBatchRun_events_classify env cfg raw).2
      rw [hc] at h1
      simpa using h1
    simp [List.filter_append, hcev, hsend, persistBatch_filter_ledger, hpc]

/-- Claim C10 (implicit): when the compression-overflow path of
`flushInternal` raises `BatchTooLarge` during `flush()`, the attach-flow
batch has already been popped from its manager, yet no transport call and
no ledger append happened for it: the popped ops are lost to both the
wire and the replay ledger. -/
theorem C10_overflow_nonatomic (env : OutboxEnv) (cfg : IOutboxConfig)
    (s : OutboxState) (evs : List Event) (e : OutboxError)
    (hc : compressBatchRun env cfg (s.attachFlowBatch.popBatch).1 =
      (evs, Except.error e)) :
    flush env cfg s = ⟨⟨⟨[]⟩, s.mainBatch⟩, evs, some e⟩
    ∧ ((flush env cfg s).events).filter isTransportSend = []
    ∧ ((flush env cfg s).events).filter isLedgerAppend = [] := by
  have hfe := flushInternal_error env cfg _ _ _ hc
  have hfl : flush env cfg s = ⟨⟨⟨[]⟩, s.mainBatch⟩, evs, some e⟩ := by
    unfold flush
    rw [hfe]
    rfl
  have h1 := compressBatchRun_events_classify env cfg
    (s.attachFlowBatch.popBatch).1
  rw [hc] at h1
  refine ⟨hfl, ?_, ?_⟩
  · rw [hfl]
    simpa using h1.1
  · rw [hfl]
    simpa using h1.2

theorem outboxLimits_hardLimit_inf (cfg : IOutboxConfig)
    (h : cfg.compressionOptions.minimumBatchSizeInBytes ≠ XNat.inf) :
    (outboxLimits cfg).1.hardLimit = XNat.inf := by
  simp [outboxLimits, h]

theorem push_inf_always_succeeds (opts : BatchManagerOptions)
    (h : opts.hardLimit = XNat.inf) (b : BatchManager) (m : BatchMessage) :
    BatchManager.push opts b m = some ⟨b.pendingBatch ++ [m]⟩ := by
  unfold BatchManager.push
  rw [h]
  rfl

/-- Claim C5: on `submitAttach`, a failed first push triggers exactly one
eager flush of the previously accumulated attach batch, then exactly one
retried push; a failed retry throws `BatchTooLarge` carrying the op size,
current (post-flush) batch size, op count and hard limit with no further
retry, while a successful retry leaves exactly the retried op pending;
and after a successful first push whose accumulated size reaches
`minimumBatchSizeInBytes`, the attach batch is eagerly flushed before
`submitAttach` returns. -/
theorem C5_submitAttach_retry_and_threshold (env : OutboxEnv)
    (cfg : IOutboxConfig) (s : OutboxState) (m : BatchMessage) :
    (BatchManager.push (outboxLimits cfg).1 s.attachFlowBatch m = none →
      (∃ rest, (submitAttach env cfg s m).events =
        (flushInternal env cfg (s.attachFlowBatch.popBatch).1).1 ++ rest)
      ∧ ((flushInternal env cfg (s.attachFlowBatch.popBatch).1).2 = none →
         BatchManager.push (outboxLimits cfg).1 ⟨[]⟩ m = none →
         submitAttach env cfg s m = ⟨⟨⟨[]⟩, s.mainBatch⟩,
           (flushInternal env cfg (s.attachFlowBatch.popBatch).1).1,
           some (OutboxError.batchTooLargePush (opSizeInBytes m) 0 0
             (outboxLimits cfg).1.hardLimit)⟩)
      ∧ (∀ b2, (flushInternal env cfg (s.attachFlowBatch.popBatch).1).2 = none →
         BatchManager.push (outboxLimits cfg).1 ⟨[]⟩ m = some b2 →
         submitAttach env cfg s m = ⟨⟨b2, s.mainBatch⟩,
           (flushInternal env cfg (s.attachFlowBatch.popBatch).1).1, none⟩))
    ∧ (∀ b1, BatchManager.push (outboxLimits cfg).1 s.attachFlowBatch m = some b1 →
       natGeX b1.contentSizeInBytes
         cfg.compressionOptions.minimumBatchSizeInBytes = true →
       submitAttach env cfg s m = ⟨⟨⟨[]⟩, s.mainBatch⟩,
         (flushInternal env cfg (b1.popBatch).1).1,
         (flushInternal env cfg (b1.popBatch).1).2⟩) := by
  constructor
  · intro hFail
    have hmin : cfg.compressionOptions.minimumBatchSizeInBytes = XNat.inf := by
      by_contra hne
      rw [push_inf_always_succeeds (outboxLimits cfg).1
        (outboxLimits_hardLimit_inf cfg hne) s.attachFlowBatch m] at hFail
      exact Option.noConfusion hFail
    rcases hfi : flushInternal env cfg (s.attachFlowBatch.popBatch).1 with ⟨evs, err⟩
    cases err with
    | some e =>
      have hsa : submitAttach env cfg s m = ⟨⟨⟨[]⟩, s.mainBatch⟩, evs, some e⟩ := by
        unfold submitAttach
        rw [hFail, hfi]
        rfl
      refine ⟨⟨[], by simp [hsa]⟩, ?_, ?_⟩
      · intro h2 _
        exact absurd h2 (by simp)
      · intro b2 h2 _
        exact absurd h2 (by simp)
    | none =>
      cases hretry : BatchManager.push (outboxLimits cfg).1 (⟨[]⟩ : BatchManager) m with
      | none =>
        have hretry2 : BatchManager.push (outboxLimits cfg).1
            (s.attachFlowBatch.popBatch).2 m = none := hretry
        have hsa : submitAttach env cfg s m = ⟨⟨⟨[]⟩, s.mainBatch⟩, evs,
            some (OutboxError.batchTooLargePush (opSizeInBytes m) 0 0
              (outboxLimits cfg).1.hardLimit)⟩ := by
          unfold submitAttach
          rw [hFail, hfi, hretry2]
          rfl
        refine ⟨⟨[], by simp [hsa]⟩, ?_, ?_⟩
        · intro _ _
          simp [hsa]
        · intro b2 _ hb2
          exact Option.noConfusion hb2
      | some b2 =>
        have hretry2 : BatchManager.push (outboxLimits cfg).1
            (s.attachFlowBatch.popBatch).2 m = some b2 := hretry
        have hthresh : attachThresholdFlush env cfg ⟨b2, s.mainBatch⟩ =
            ⟨⟨b2, s.mainBatch⟩, [], none⟩ := by
          unfold attachThresholdFlush
          have hcond : natGeX ((⟨b2, s.mainBatch⟩ : OutboxState)
              |>.attachFlowBatch.contentSizeInBytes)
              cfg.compressionOptions.minimumBatchSizeInBytes = false := by
            rw [hmin]
            rfl
          rw [hcond]
          rfl
        have hsa : submitAttach env cfg s m = ⟨⟨b2, s.mainBatch⟩, evs, none⟩ := by
          unfold submitAttach
          rw [hFail, hfi, hretry2]
          show (⟨(attachThresholdFlush env cfg ⟨b2, s.mainBatch⟩).state,
            evs ++ (attachThresholdFlush env cfg ⟨b2, s.mainBatch⟩).events,
            (attachThresholdFlush env cfg ⟨b2, s.mainBatch⟩).err⟩ : ExecResult) = _
          rw [hthresh]
          simp
        refine ⟨⟨[], by simp [hsa]⟩, ?_, ?_⟩
        · intro _ hb2
          exact Option.noConfusion hb2
        · intro b2x _ hb2
          cases hb2
          simp [hsa]
  · intro b1 hPush hGe
    rcases hfb : flushInternal env cfg (b1.popBatch).1 with ⟨evs2, err2⟩
    have hthresh : attachThresholdFlush env cfg ⟨b1, s.mainBatch⟩ =
        ⟨⟨⟨[]⟩, s.mainBatch⟩, evs2, err2⟩ := by
      unfold attachThresholdFlush
      have hcond : natGeX ((⟨b1, s.mainBatch⟩ : OutboxState)
          |>.attachFlowBatch.contentSizeInBytes)
          cfg.compressionOptions.minimumBatchSizeInBytes = true := hGe
      rw [hcond]
      have hfb2 : flushInternal env cfg
          (((⟨b1, s.mainBatch⟩ : OutboxState).attachFlowBatch.popBatch).1) =
          (evs2, err2) := hfb
      rw [hfb2]
      rfl
    have hsa : submitAttach env cfg s m = ⟨⟨⟨[]⟩, s.mainBatch⟩, evs2, err2⟩ := by
      simp only [submitAttach, hPush]
      rw [hthresh]
    simp [hsa]

/-- Claim C6 counterexample: with compression enabled the claim says both
batch managers receive softLimit = infinity, but the constructor passes
no softLimit at all to the main batch manager. -/
theorem C6_counterexample :
    cfgCompressionOn.compressionOptions.minimumBatchSizeInBytes ≠ XNat.inf
    ∧ (outboxLimits cfgCompressionOn).2.softLimit = none
    ∧ (outboxLimits cfgCompressionOn).2.softLimit ≠ some XNat.inf := by
  decide

/-- Claim C6 (amended): limits are computed once at construction: if
compression is enabled (finite minimumBatchSizeInBytes), both managers
receive hardLimit = infinity and the attach-flow manager receives
softLimit = infinity while the main manager receives no softLimit at
all; otherwise both managers receive hardLimit = maxBatchSizeInBytes and
the attach-flow manager receives softLimit = 64 KiB, the main manager
again receiving no softLimit. -/
theorem C6_limits_table (cfg : IOutboxConfig) :
    (cfg.compressionOptions.minimumBatchSizeInBytes ≠ XNat.inf →
      outboxLimits cfg =
        (⟨XNat.inf, some XNat.inf, cfg.enableOpReentryCheck⟩,
         ⟨XNat.inf, none, cfg.enableOpReentryCheck⟩))
    ∧ (cfg.compressionOptions.minimumBatchSizeInBytes = XNat.inf →
      outboxLimits cfg =
        (⟨XNat.fin cfg.maxBatchSizeInBytes,
          some (XNat.fin defaultAttachFlowSoftLimitInBytes),
          cfg.enableOpReentryCheck⟩,
         ⟨XNat.fin cfg.maxBatchSizeInBytes, none,
          cfg.enableOpReentryCheck⟩)) := by
  constructor
  · intro h
    simp [outboxLimits, h]
  · intro h
    simp [outboxLimits, h]

/-- Witness for C6_limits_table at the compression-disabled fixture. -/
theorem C6_limits_table_witness :
    outboxLimits cfgCompressionOff =
      (⟨XNat.fin 716800, some (XNat.fin 65536), none⟩,
       ⟨XNat.fin 716800, none, none⟩) :=
  (C6_limits_table cfgCompressionOff).2 rfl

/-- Claim C9 counterexample: an op whose metadata holds a compressed flag
with value false reaches the legacy single-op submission call with the
flag still present, so the claim that any compressed flag found is
removed (absent at the submission call) fails as stated. -/
theorem C9_counterexample :
    submittedCompressedFields (sendBatch envLegacy ⟨[msgCompressedFalse], 2⟩) =
      [some (some false)]
    ∧ (some (some false) : Option (Option Bool)) ≠ some none := by
  decide

/-- Claim C9 (amended): on the legacy send path (transport lacking
submitBatchFn), each op is submitted via a single-op call with the batch
flag set and its payload bytes untouched; a compressed flag set to true
is removed before the call, while any other metadata (including a
false-valued compressed flag) is passed through unchanged; after the
loop the transport flush is signalled exactly once. -/
theorem C9_legacy_send_path (env : OutboxEnv) (batch : IBatch)
    (hLegacy : env.hasSubmitBatchFn = false)
    (hSend : env.shouldSend = true)
    (hne : batch.content ≠ []) :
    sendBatch env batch =
      (batch.content.map (fun m =>
        Event.submitCall MessageType.Operation m.deserializedContent true
          (stripCompressed m.metadata)))
      ++ [Event.deltaManagerFlush]
    ∧ (∀ md : OpMetadata, md.compressed = some true →
        stripCompressed (some md) = some ⟨none, md.flags⟩)
    ∧ (∀ md : OpMetadata, md.compressed ≠ some true →
        stripCompressed (some md) = some md)
    ∧ ((sendBatch env batch).filter
        (fun ev => decide (ev = Event.deltaManagerFlush))) =
      [Event.deltaManagerFlush] := by
  have hmain : sendBatch env batch =
      (batch.content.map (fun m =>
        Event.submitCall MessageType.Operation m.deserializedContent true
          (stripCompressed m.metadata)))
      ++ [Event.deltaManagerFlush] := by
    unfold sendBatch
    rw [hSend, hLegacy]
    cases hc : batch.content with
    | nil => exact absurd hc hne
    | cons a t => simp
  refine ⟨hmain, ?_, ?_, ?_⟩
  · intro md h
    show (if md.compressed = some true then some (⟨none, md.flags⟩ : OpMetadata)
      else some md) = some ⟨none, md.flags⟩
    rw [if_pos h]
  · intro md h
    show (if md.compressed = some true then some (⟨none, md.flags⟩ : OpMetadata)
      else some md) = some md
    rw [if_neg h]
  · rw [hmain, List.filter_append]
    have hmap : (batch.content.map (fun m =>
        Event.submitCall MessageType.Operation m.deserializedContent true
          (stripCompressed m.metadata))).filter
        (fun ev => decide (ev = Event.deltaManagerFlush)) = [] := by
      simp
    rw [hmap]
    rfl

/-- Witness for C9_legacy_send_path: concrete legacy submission of one op
with a false-valued compressed flag. -/
theorem C9_legacy_send_path_witness :
    sendBatch envLegacy ⟨[msgCompressedFalse], 2⟩ =
      [Event.submitCall MessageType.Operation ⟨"op", "payloadZ"⟩ true
        (some ⟨some false, ["k"]⟩),
       Event.deltaManagerFlush] := by
  rw [(C9_legacy_send_path envLegacy ⟨[msgCompressedFalse], 2⟩ rfl rfl
    (by decide)).1]
  rfl

/-- Witness for C1_flush_attach_before_main: with one op in each manager,
the transport sees the attach send before the main send. -/
theorem C1_witness :
    (flush envModern cfgCompressionOff
      ⟨⟨[msgA]⟩, ⟨[msgB]⟩⟩).events.filter isTransportSend =
      (sendBatch envModern ⟨[msgA], 4⟩).filter isTransportSend
      ++ (sendBatch envModern ⟨[msgB], 2⟩).filter isTransportSend :=
  (C1_flush_attach_before_main envModern cfgCompressionOff ⟨⟨[msgA]⟩, ⟨[msgB]⟩⟩
    ⟨[msgA], 4⟩ ⟨[msgB], 2⟩ [] [] rfl rfl rfl (by decide) (by decide)
    (by decide) (by decide)).2.1

/-- Witness for C2_ledger_records: a legacy-path flush of one op with a
truthy compressed flag and compression skipped yields exactly one ledger
append with the raw fields and the in-place-stripped wire metadata. -/
theorem C2_witness :
    ((flushInternal envLegacy cfgCompressionOff
      ⟨[msgCompressedTrue], 2⟩).1).filter isLedgerAppend =
      [Event.ledgerAppend "op" 9 "payloadC" none (some ⟨none, ["w"]⟩)] := by
  rw [C2_ledger_records envLegacy cfgCompressionOff ⟨[msgCompressedTrue], 2⟩ rfl]
  rfl

/-- Witness for C3_compression_overflow: an oversize compressor output
with chunking disabled produces BatchTooLarge with compressedBatchSize
populated. -/
theorem C3_witness :
    (flushInternal envOversize cfgSmallMax ⟨[msgA], 4⟩).2 =
      some (OutboxError.batchTooLargeCompress 4 999 0 10 false
        ⟨XNat.fin 3⟩) :=
  ((C3_compression_overflow envOversize cfgSmallMax ⟨[msgA], 4⟩ (by decide)
    rfl (by decide)).1 rfl).2

/-- Witness for C4_compression_threshold: compression disabled leaves a
batch byte-for-byte unchanged. -/
theorem C4_witness :
    compressBatchRun envModern cfgCompressionOff ⟨[msgA], 4⟩ =
      ([], Except.ok ⟨[msgA], 4⟩) :=
  (C4_compression_threshold envModern cfgCompressionOff ⟨[msgA], 4⟩).1
    (Or.inr (Or.inl rfl))

/-- Witness for C5_submitAttach_retry_and_threshold: a push failure at a
5-byte hard limit flushes the 4-byte pending batch once, then the retried
push succeeds, leaving only the new op pending. -/
theorem C5_witness :
    submitAttach envModern cfgTinyLimit ⟨⟨[msgA]⟩, ⟨[]⟩⟩ msgB =
      ⟨⟨⟨[msgB]⟩, ⟨[]⟩⟩,
        (flushInternal envModern cfgTinyLimit ⟨[msgA], 4⟩).1, none⟩ :=
  ((C5_submitAttach_retry_and_threshold envModern cfgTinyLimit
    ⟨⟨[msgA]⟩, ⟨[]⟩⟩ msgB).1 rfl).2.2 ⟨[msgB]⟩ rfl rfl

/-- Witness for C7_submit_behavior: a 2-byte op on top of 4 pending bytes
against a 5-byte hard limit throws with the diagnostic fields. -/
theorem C7_witness :
    submit cfgTinyLimit ⟨⟨[]⟩, ⟨[msgA]⟩⟩ msgB =
      ⟨⟨⟨[]⟩, ⟨[msgA]⟩⟩, [],
        some (OutboxError.batchTooLargePush 2 4 1 (XNat.fin 5))⟩ :=
  (C7_submit_behavior cfgTinyLimit ⟨⟨[]⟩, ⟨[msgA]⟩⟩ msgB).1 rfl

/-- Witness for C8_disconnected_noop: with shouldSend false the ledger
still receives the raw op. -/
theorem C8_witness :
    ((flushInternal envOffline cfgCompressionOff ⟨[msgA], 4⟩).1).filter
      isLedgerAppend = persistBatch [msgA] :=
  (C8_disconnected_noop envOffline cfgCompressionOff ⟨[msgA], 4⟩ []
    ⟨[msgA], 4⟩ rfl (Or.inr rfl)).2.2.2

/-- Witness for C10_overflow_nonatomic: the overflow error leaves the
attach manager emptied with nothing sent and nothing persisted. -/
theorem C10_witness :
    flush envOversize cfgSmallMax ⟨⟨[msgA]⟩, ⟨[]⟩⟩ =
      ⟨⟨⟨[]⟩, ⟨[]⟩⟩, [Event.compressorCall ⟨[msgA], 4⟩],
        some (OutboxError.batchTooLargeCompress 4 999 0 10 false
          ⟨XNat.fin 3⟩)⟩ :=
  (C10_overflow_nonatomic envOversize cfgSmallMax ⟨⟨[msgA]⟩, ⟨[]⟩⟩
    [Event.compressorCall ⟨[msgA], 4⟩]
    (OutboxError.batchTooLargeCompress 4 999 0 10 false ⟨XNat.fin 3⟩)
    rfl).1
